import Mathlib

/-!
Verification of the chromium-session repository against its specification.

The repository ships a single source file, `src/chromium_session/cli.py`
(the CLI layer).  Its collaborators (`parser.SessionParser`,
`parser.load_vivaldi_workspaces`, `browsers.*`) are part of the same
repository but their sources are not available here; where a claim is
decided by that missing core, the core is modelled from the specification
(each such definition says so in its doc comment).  Everything else is a
direct shallow embedding of `cli.py`.
-/

/-! ## Data model of the replay engine (spec sections 3 and 4.3) -/

/-- Modelled from the spec: the `Tab` entity of section 3 of the spec
(the replay core is not under `src/`).  `title` defaults to empty,
`deleted` is the tombstone flag, `workspace` holds the raw workspace id. -/
structure Tab where
  title : String := ""
  active : Bool := false
  deleted : Bool := false
  workspace : Option Nat := none
  pinned : Bool := false
deriving DecidableEq, Repr

/-- Modelled from the spec: the `Window` entity of section 3 of the spec.
A window owns an ordered sequence of tab ids (`tabIds`). -/
structure Window where
  active : Bool := false
  deleted : Bool := false
  tabIds : List Nat := []
deriving DecidableEq, Repr

/-- Modelled from the spec: `SessionState` of section 3 of the spec, an
insertion-ordered collection of windows together with the tab entities,
both keyed by their stream-local integer ids. -/
structure SessionState where
  windows : List (Nat × Window) := []
  tabs : List (Nat × Tab) := []
deriving DecidableEq, Repr

/-- Modelled from the spec: the closed command vocabulary of section 4.2,
including the catch-all variant for unrecognized command ids. -/
inductive Command where
  | createWindow (windowId : Nat)
  | createTab (tabId windowId index : Nat)
  | setTabTitle (tabId : Nat) (title : String)
  | setActiveWindow (windowId : Nat)
  | setSelectedTabInWindow (windowId tabId : Nat)
  | tabClosed (tabId : Nat)
  | windowClosed (windowId : Nat)
  | setTabWorkspace (tabId workspaceId : Nat)
  | moveTabToWindow (tabId targetWindowId index : Nat)
  | pinTab (tabId : Nat) (value : Bool)
  | setTabIndex (tabId index : Nat)
  | unknown (id : Nat) (payload : List Nat)
deriving DecidableEq, Repr

/-- Association-list lookup by integer id. -/
def alookup {α : Type} : List (Nat × α) → Nat → Option α
  | [], _ => none
  | p :: rest, k => if p.1 = k then some p.2 else alookup rest k

/-- Map `f` over the values of the entries whose key satisfies `g`,
leaving the other entries (and the order and the set of keys) unchanged. -/
def amapWhere {α : Type} (g : Nat → Bool) (f : Nat → α → α) :
    List (Nat × α) → List (Nat × α)
  | [] => []
  | p :: rest =>
      (if g p.1 then (p.1, f p.1 p.2) else p) :: amapWhere g f rest

/-- Lazily create the entry for `k` with default value `d` (spec section 4.3:
referencing an id not yet created implicitly creates a default entity). -/
def aensure {α : Type} (l : List (Nat × α)) (k : Nat) (d : α) : List (Nat × α) :=
  match alookup l k with
  | some _ => l
  | none => l ++ [(k, d)]

/-- Ensure the window with id `wid` exists (default-valued if absent). -/
def ensureWindow (s : SessionState) (wid : Nat) : SessionState :=
  { s with windows := aensure s.windows wid {} }

/-- Ensure the tab with id `tid` exists (default-valued if absent). -/
def ensureTab (s : SessionState) (tid : Nat) : SessionState :=
  { s with tabs := aensure s.tabs tid {} }

/-- Update the tab entities selected by `g`. -/
def mapTabs (s : SessionState) (g : Nat → Bool) (f : Nat → Tab → Tab) : SessionState :=
  { s with tabs := amapWhere g f s.tabs }

/-- Update the window entities selected by `g`. -/
def mapWindows (s : SessionState) (g : Nat → Bool) (f : Nat → Window → Window) :
    SessionState :=
  { s with windows := amapWhere g f s.windows }

/-- The ordered tab ids owned by window `wid` (empty if the window is absent). -/
def windowTabIds (s : SessionState) (wid : Nat) : List Nat :=
  match alookup s.windows wid with
  | some w => w.tabIds
  | none => []

/-- Insert `x` at position `idx` of `l` (clamped to the end, as Python
`list.insert` does). -/
def insertAt (l : List Nat) (idx x : Nat) : List Nat :=
  l.take idx ++ x :: l.drop idx

/-- Modelled from the spec: detach a tab from whatever window owns it and
attach it to window `wid` at position `idx` (the shared effect of
`CreateTab` and `MoveTabToWindow` in the table of section 4.2). -/
def attachTab (s : SessionState) (tid wid idx : Nat) : SessionState :=
  mapWindows
    (mapWindows (ensureWindow (ensureTab s tid) wid) (fun _ => true)
      (fun _ w => { w with tabIds := w.tabIds.filter (fun x => x != tid) }))
    (fun k => k == wid)
    (fun _ w => { w with tabIds := insertAt w.tabIds idx tid })

/-- Modelled from the spec: one step of the replay engine, the effect table
of section 4.2 (the replay core is not under `src/`).  Unknown commands are
inert; ids referenced before creation are implicitly created default-valued. -/
def step (s : SessionState) : Command → SessionState
  | .createWindow wid => ensureWindow s wid
  | .createTab tid wid idx => attachTab s tid wid idx
  | .setTabTitle tid t =>
      mapTabs (ensureTab s tid) (fun k => k == tid)
        (fun _ tb => { tb with title := t })
  | .setActiveWindow wid =>
      mapWindows (ensureWindow s wid) (fun _ => true)
        (fun k w => { w with active := k == wid })
  | .setSelectedTabInWindow wid tid =>
      mapTabs
        (mapTabs (ensureTab (ensureWindow s wid) tid)
          (fun k => (windowTabIds (ensureTab (ensureWindow s wid) tid) wid).contains k)
          (fun _ tb => { tb with active := false }))
        (fun k => k == tid) (fun _ tb => { tb with active := true })
  | .tabClosed tid =>
      mapTabs (ensureTab s tid) (fun k => k == tid)
        (fun _ tb => { tb with deleted := true })
  | .windowClosed wid =>
      mapTabs
        (mapWindows (ensureWindow s wid) (fun k => k == wid)
          (fun _ w => { w with deleted := true }))
        (fun k => (windowTabIds (ensureWindow s wid) wid).contains k)
        (fun _ tb => { tb with deleted := true })
  | .setTabWorkspace tid ws =>
      mapTabs (ensureTab s tid) (fun k => k == tid)
        (fun _ tb => { tb with workspace := some ws })
  | .moveTabToWindow tid wid idx => attachTab s tid wid idx
  | .pinTab tid v =>
      mapTabs (ensureTab s tid) (fun k => k == tid)
        (fun _ tb => { tb with pinned := v })
  | .setTabIndex tid idx =>
      match (ensureTab s tid).windows.find? (fun p => p.2.tabIds.contains tid) with
      | none => ensureTab s tid
      | some p =>
          mapWindows (ensureTab s tid) (fun k => k == p.1)
            (fun _ w =>
              { w with tabIds := insertAt (w.tabIds.filter (fun x => x != tid)) idx tid })
  | .unknown _ _ => s

/-- The empty `SessionState` a replay starts from. -/
def initialState : SessionState := {}

/-- Modelled from the spec: the replay engine of section 4.3, a strict
sequential fold of `step` over the command sequence, starting from `from0`. -/
def replayFrom (from0 : SessionState) (cmds : List Command) : SessionState :=
  cmds.foldl step from0

/-- Replay a command sequence into a fresh empty `SessionState`. -/
def replay (cmds : List Command) : SessionState :=
  replayFrom initialState cmds

/-- The tombstone flag of tab `tid` in state `s` (`false` when absent). -/
def tabDeleted (s : SessionState) (tid : Nat) : Bool :=
  match alookup s.tabs tid with
  | some t => t.deleted
  | none => false

/-- The tombstone flag of window `wid` in state `s` (`false` when absent). -/
def windowDeleted (s : SessionState) (wid : Nat) : Bool :=
  match alookup s.windows wid with
  | some w => w.deleted
  | none => false

/-! ## Command decoder (spec section 4.2) -/

/-- Modelled from the spec: the record splitter of section 4.2 (the decoder
core is not under `src/`).  Bytes are repeatedly split into records by a
2-byte little-endian length prefix `L` that counts the 1-byte command id
plus the payload; a record whose declared length exceeds the remaining
buffer — or a buffer ending inside the length prefix, or a record declaring
the impossible length 0 — stops decoding with the truncation flag set,
preserving all records decoded so far. -/
def decodeRecords : List Nat → List (Nat × List Nat) × Bool
  | [] => ([], false)
  | [_] => ([], true)
  | [_, _] => ([], true)
  | b0 :: b1 :: c :: rest2 =>
      if b0 + 256 * b1 = 0 then ([], true)
      else if rest2.length < b0 + 256 * b1 - 1 then ([], true)
      else
        ((c, rest2.take (b0 + 256 * b1 - 1)) ::
            (decodeRecords (rest2.drop (b0 + 256 * b1 - 1))).1,
          (decodeRecords (rest2.drop (b0 + 256 * b1 - 1))).2)
termination_by bytes => bytes.length
decreasing_by
  all_goals simp only [List.length_drop, List.length_cons]; omega

/-- The container framing of one record: 2-byte little-endian length
(command id byte included in the count), command id, payload. -/
def encodeRec (r : Nat × List Nat) : List Nat :=
  ((r.2.length + 1) % 256) :: ((r.2.length + 1) / 256) :: r.1 :: r.2

/-- A whole command stream: the concatenated framings of its records. -/
def encodeRecords : List (Nat × List Nat) → List Nat
  | [] => []
  | r :: rs => encodeRec r ++ encodeRecords rs

/-- Little-endian 32-bit read at offset `i` of a payload (missing bytes
read as 0). -/
def readU32 (l : List Nat) (i : Nat) : Nat :=
  l.getD i 0 + 256 * l.getD (i + 1) 0 + 65536 * l.getD (i + 2) 0 +
    16777216 * l.getD (i + 3) 0

/-- UTF-16-LE code units to characters, invalid units replaced (spec
section 4.1: decode replacing invalid sequences rather than failing). -/
def utf16Chars : List Nat → List Char
  | lo :: hi :: rest => Char.ofNat (lo + 256 * hi) :: utf16Chars rest
  | _ => []

/-- Modelled from the spec: payload decoding per the command table of
section 4.2.  The spec's section 9 leaves the exact command ids and byte
layout open; this uses a representative little-endian layout with the
table's rows numbered 0 to 10, every other id decoding to the inert
`unknown` variant. -/
def decodeCommand (r : Nat × List Nat) : Command :=
  if r.1 = 0 then .createWindow (readU32 r.2 0)
  else if r.1 = 1 then .createTab (readU32 r.2 0) (readU32 r.2 4) (readU32 r.2 8)
  else if r.1 = 2 then
    .setTabTitle (readU32 r.2 0)
      (String.mk (utf16Chars ((r.2.drop 8).take (2 * readU32 r.2 4))))
  else if r.1 = 3 then .setActiveWindow (readU32 r.2 0)
  else if r.1 = 4 then .setSelectedTabInWindow (readU32 r.2 0) (readU32 r.2 4)
  else if r.1 = 5 then .tabClosed (readU32 r.2 0)
  else if r.1 = 6 then .windowClosed (readU32 r.2 0)
  else if r.1 = 7 then .setTabWorkspace (readU32 r.2 0) (readU32 r.2 4)
  else if r.1 = 8 then .moveTabToWindow (readU32 r.2 0) (readU32 r.2 4) (readU32 r.2 8)
  else if r.1 = 9 then .pinTab (readU32 r.2 0) (r.2.getD 4 0 != 0)
  else if r.1 = 10 then .setTabIndex (readU32 r.2 0) (readU32 r.2 4)
  else .unknown r.1 r.2

/-- Modelled from the spec: the facade of sections 4.2 and 4.3 on one
buffer of body bytes — split into records, decode each record, replay; the
second component is the truncation marker of section 7 (`TruncatedData` is
not fatal: the best-effort state is returned together with the flag). -/
def parseBytes (bytes : List Nat) : SessionState × Bool :=
  ((replay (((decodeRecords bytes).1).map decodeCommand)), (decodeRecords bytes).2)

/-! ## The parsed-result shape consumed by the presentation layer
(`summary`, `cli.py` lines 287-297) -/

/-- A Python value sitting in a tab's `"workspace"` slot: Python `None`,
a string, or a two-key dict with `name` and `emoji` entries. -/
inductive PyWs where
  | pnone
  | pstr (s : String)
  | precord (name : String) (emoji : Option String)
deriving DecidableEq, Repr

/-- Python truthiness of a `"workspace"` value: `None` and `""` are falsy,
a non-empty string and a non-empty dict are truthy. -/
def pyFalsy : PyWs → Bool
  | .pnone => true
  | .pstr s => s.isEmpty
  | .precord _ _ => false

/-- A tab record as the presentation layer reads it: exactly the fields
`title`, `active`, `deleted` and `workspace` are accessed by
`summary` and `display_by_window` in `cli.py`. -/
structure PyTab where
  title : String
  active : Bool
  deleted : Bool
  workspace : PyWs
deriving DecidableEq, Repr

/-- A window record as the presentation layer reads it: fields `active`,
`deleted` and `tabs`. -/
structure PyWindow where
  active : Bool
  deleted : Bool
  tabs : List PyTab
deriving DecidableEq, Repr

/-- A parsed-session result as the presentation layer reads it: keyed by
`"windows"`. -/
structure PyResult where
  windows : List PyWindow
deriving DecidableEq, Repr

/-- `cli.py` line 296, `ws_name = tab.get("workspace") or "No Workspace"`,
followed by the use of `ws_name` as a `ws_counts` dict key on line 297:
a falsy value displays as `"No Workspace"`, a string is used as the key
directly, and a dict value raises `TypeError` when hashed as a key. -/
def wsName (w : PyWs) : Except String String :=
  if pyFalsy w then .ok "No Workspace"
  else
    match w with
    | .pstr s => .ok s
    | .precord _ _ => .error "TypeError: unhashable type: dict"
    | .pnone => .ok "No Workspace"

/-- `ws_counts[ws_name] = ws_counts.get(ws_name, 0) + 1` on an
insertion-ordered association list. -/
def bumpCount : List (String × Nat) → String → List (String × Nat)
  | [], k => [(k, 1)]
  | (k0, n) :: rest, k =>
      if k0 = k then (k0, n + 1) :: rest else (k0, n) :: bumpCount rest k

/-- The inner tab loop of `summary` (`cli.py` lines 292-297): accumulate
total tabs, deleted tabs and per-workspace counts. -/
def countTabs : List PyTab → Nat × Nat × List (String × Nat) →
    Except String (Nat × Nat × List (String × Nat))
  | [], acc => .ok acc
  | t :: ts, (tot, del, wc) =>
      match wsName t.workspace with
      | .error e => .error e
      | .ok k =>
          countTabs ts (tot + 1, (if t.deleted then del + 1 else del), bumpCount wc k)

/-- The window loop of `summary` (`cli.py` line 291). -/
def countWindows : List PyWindow → Nat × Nat × List (String × Nat) →
    Except String (Nat × Nat × List (String × Nat))
  | [], acc => .ok acc
  | w :: ws, acc =>
      match countTabs w.tabs acc with
      | .error e => .error e
      | .ok a => countWindows ws a

/-- The statistics pass of the `summary` command over one parsed result
(`cli.py` lines 287-297). -/
def summaryCounts (r : PyResult) : Except String (Nat × Nat × List (String × Nat)) :=
  countWindows r.windows (0, 0, [])

/-- `true` when a `"workspace"` slot is `None` or a string (not a
`name`/`emoji` dict). -/
def wsStringShaped : PyWs → Bool
  | .precord _ _ => false
  | .pnone => true
  | .pstr _ => true

/-- `true` when every tab's `workspace` slot is `None` or a string
(no `name`/`emoji` dict on any tab). -/
def resultStringShaped (r : PyResult) : Bool :=
  r.windows.all (fun w => w.tabs.all (fun t => wsStringShaped t.workspace))

/-! ## The per-file batch loop of the `parse` command
(`cli.py` lines 214-241) -/

/-- The `for filepath in files_to_parse` loop of `parse` (`cli.py` lines
214-237): each file is attempted in order; a successful `parse_file` call
appends the annotated result to `all_results`, an exception is caught,
reported, and the loop continues with the next file.  Returns the
accumulated results (each paired with its file, standing for the `_file`
annotation) and the reported per-file errors. -/
def processFiles {F R E : Type} (parseFile : F → Except E R) :
    List F → List (R × F) × List (F × E)
  | [] => ([], [])
  | f :: fs =>
      match parseFile f with
      | .ok r =>
          (((r, f) :: (processFiles parseFile fs).1), (processFiles parseFile fs).2)
      | .error e =>
          ((processFiles parseFile fs).1, ((f, e) :: (processFiles parseFile fs).2))

/-- The shape of the JSON output of `parse`. -/
inductive JsonOut (α : Type) where
  | single (r : α)
  | many (rs : List α)
deriving DecidableEq, Repr

/-- `cli.py` lines 239-241: `output = all_results if len(all_results) > 1
else all_results[0]` — more than one result emits the list, exactly one
emits the single object, and an empty list raises `IndexError` at
`all_results[0]`. -/
def jsonEmit {α : Type} (allResults : List α) : Except String (JsonOut α) :=
  if allResults.length > 1 then .ok (.many allResults)
  else
    match allResults with
    | [] => .error "IndexError: list index out of range"
    | r :: _ => .ok (.single r)

/-- A concrete parse oracle used to witness the batch-loop theorems:
fails on the file named `bad`, succeeds elsewhere. -/
def demoParse : String → Except String Nat :=
  fun f => if f = "bad" then .error "boom" else .ok 1

/-! ## `list_session_files` (`cli.py` lines 69-74) -/

/-- A directory entry: file name and modification time. -/
structure DirEntry where
  name : String
  mtime : Nat
deriving DecidableEq, Repr

/-- The four glob patterns of `list_session_files`, matched against a file
name: a pattern ending in `*` matches by its stem, otherwise the names
must be equal. -/
def globMatch (pat name : String) : Bool :=
  if pat.toList.getLast? = some (Char.ofNat 42) then
    (pat.toList.dropLast).isPrefixOf name.toList
  else pat == name

/-- Newest-first ordering on directory entries (`reverse=True` over the
`st_mtime` sort key). -/
def mtimeGe (a b : DirEntry) : Prop := b.mtime ≤ a.mtime

instance : DecidableRel mtimeGe := fun a b => Nat.decLe b.mtime a.mtime

instance : IsTotal DirEntry mtimeGe := ⟨fun a b => Nat.le_total b.mtime a.mtime⟩

instance : IsTrans DirEntry mtimeGe :=
  ⟨fun _ _ _ h1 h2 => Nat.le_trans h2 h1⟩

/-- `list_session_files` (`cli.py` lines 69-74): collect the entries
matching each of the four patterns in pattern order, then sort by
modification time, newest first. -/
def listSessionFiles (dir : List DirEntry) : List DirEntry :=
  (["Session_*", "Tabs_*", "Current Session", "Current Tabs"].foldl
      (fun acc pat => acc ++ dir.filter (fun e => globMatch pat e.name)) []).insertionSort
    mtimeGe

/-! ## Workspace loading in the `parse` command (`cli.py` lines 196-216) -/

/-- A workspace definition: `{name, emoji}` (spec section 3). -/
structure WorkspaceRec where
  name : String
  emoji : Option String
deriving DecidableEq, Repr

/-- The workspace-id to workspace mapping of one profile. -/
abbrev WsMap : Type := List (Nat × WorkspaceRec)

/-- The `SessionParser` object as `cli.py` line 211 constructs it: it holds
the workspace mapping it was given. -/
structure SessionParserObj where
  workspaces : WsMap

/-- One observable event of a run of the `parse` command. -/
inductive RunEvent where
  | loadedWorkspaces (m : WsMap)
  | parsedFile (file : String) (m : WsMap)
deriving DecidableEq, Repr

/-- The control flow of the `parse` command around workspace loading
(`cli.py` lines 196-216): `load_vivaldi_workspaces` is called once, before
the file loop; the `SessionParser` is constructed once from that mapping;
every iteration of the loop parses its file through that same parser
object.  `loadedMap` stands for the value the single
`load_vivaldi_workspaces` call returns. -/
def parseCommandEvents (loadedMap : WsMap) (filesToParse : List String) :
    List RunEvent :=
  let workspacesMap := loadedMap
  let parser : SessionParserObj := { workspaces := workspacesMap }
  RunEvent.loadedWorkspaces workspacesMap ::
    filesToParse.map (fun f => RunEvent.parsedFile f parser.workspaces)

/-- Recognizer for the workspace-loading event. -/
def isLoadEvent : RunEvent → Bool
  | .loadedWorkspaces _ => true
  | .parsedFile _ _ => false

/-! ## `get_selected_profile` (`cli.py` lines 48-66) -/

/-- A browser profile as `get_selected_profile` reads it: its name and
whether a sessions directory was found for it. -/
structure BrowserProfile where
  name : String
  hasSessions : Bool
deriving DecidableEq, Repr

/-- A browser as `get_selected_profile` reads it: its profile list. -/
structure Browser where
  profiles : List BrowserProfile
deriving DecidableEq, Repr

/-- Python `needle in hay` on strings, over character lists: `needle`
occurs contiguously in `hay`. -/
def subListOf (needle : List Char) : List Char → Bool
  | [] => needle.isEmpty
  | c :: t => needle.isPrefixOf (c :: t) || subListOf needle t

/-- Python `needle.lower() in hay.lower()`: case-insensitive substring
containment. -/
def lowerContains (hay needle : String) : Bool :=
  subListOf (needle.toList.map Char.toLower) (hay.toList.map Char.toLower)

/-- `get_selected_profile` (`cli.py` lines 48-66).  An empty profile list
gives `None`.  A truthy `profile_name` (Python truthiness: not `None`, not
the empty string) first looks for an exact name match, then for a
case-insensitive containment match; when neither loop returns, control
falls through to the fallback: the first profile with sessions, else
`profiles[0]`. -/
def getSelectedProfile (b : Browser) (profileName : Option String) :
    Option BrowserProfile :=
  if b.profiles.isEmpty then none
  else
    match
      ((match profileName with
        | some pn =>
            if pn.isEmpty then none
            else
              match b.profiles.find? (fun p => p.name == pn) with
              | some p => some p
              | none => b.profiles.find? (fun p => lowerContains p.name pn)
        | none => none) : Option BrowserProfile)
    with
    | some p => some p
    | none =>
        match b.profiles.find? (fun p => p.hasSessions) with
        | some p => some p
        | none => b.profiles.head?

/-- The amended selection contract, written from the claim's words (with a
given empty-string name treated as no name, which is the only amendment):
`None` exactly on an empty profile list; for a given non-empty name, an
exact name match is preferred, then a case-insensitive containment match;
otherwise the first profile with sessions, else the first profile. -/
def specSelectedProfile (b : Browser) (profileName : Option String) :
    Option BrowserProfile :=
  match b.profiles with
  | [] => none
  | first :: _ =>
      let fallback :=
        match b.profiles.find? (fun p => p.hasSessions) with
        | some p => p
        | none => first
      match profileName with
      | none => some fallback
      | some pn =>
          if pn.isEmpty then some fallback
          else
            match b.profiles.find? (fun p => p.name == pn) with
            | some p => some p
            | none =>
                match b.profiles.find? (fun p => lowerContains p.name pn) with
                | some p => some p
                | none => some fallback

/-- `Except` success recognizer. -/
def exceptIsOk {ε α : Type} : Except ε α → Bool
  | .ok _ => true
  | .error _ => false

/-! ## Theorems -/

theorem decodeCommand_unknown (id : Nat) (payload : List Nat) (h : 10 < id) :
    decodeCommand (id, payload) = Command.unknown id payload := by
  unfold decodeCommand
  repeat rw [if_neg (by simp; omega)]

/-- C4: inserting a record with an unrecognized command id — which decodes
to the `unknown` variant — at any position of a command sequence leaves
the replayed `SessionState` unchanged. -/
theorem unknown_commands_are_noops :
    ∀ (pre post : List Command) (id : Nat) (payload : List Nat),
      replay (pre ++ Command.unknown id payload :: post) = replay (pre ++ post) ∧
      (10 < id → decodeCommand (id, payload) = Command.unknown id payload) := by
  intro pre post id payload
  constructor
  · simp [replay, replayFrom, List.foldl_append, step]
  · exact decodeCommand_unknown id payload

/-- C4 witness: a concrete unrecognized record is inert. -/
theorem unknown_commands_are_noops_witness :
    replay ([Command.createWindow 1] ++ Command.unknown 99 [7] :: [Command.tabClosed 2]) =
        replay ([Command.createWindow 1] ++ [Command.tabClosed 2]) ∧
    decodeCommand (99, [7]) = Command.unknown 99 [7] :=
  ⟨(unknown_commands_are_noops [Command.createWindow 1] [Command.tabClosed 2] 99 [7]).1,
    (unknown_commands_are_noops [Command.createWindow 1] [Command.tabClosed 2] 99 [7]).2
      (by omega)⟩

/-- C6: the replay engine is a pure function of its input sequence —
replaying the same decoded sequence from two fresh empty states yields
identical `SessionState`s. -/
theorem replay_engine_deterministic :
    ∀ (cmds : List Command) (s1 s2 : SessionState),
      s1 = initialState → s2 = initialState →
      replayFrom s1 cmds = replayFrom s2 cmds := by
  intro cmds s1 s2 h1 h2
  rw [h1, h2]

/-- C6 witness: determinism at a concrete sequence. -/
theorem replay_engine_deterministic_witness :
    replayFrom initialState [Command.createWindow 1, Command.tabClosed 2] =
        replayFrom initialState [Command.createWindow 1, Command.tabClosed 2] :=
  replay_engine_deterministic [Command.createWindow 1, Command.tabClosed 2]
    initialState initialState rfl rfl

/-- C2: a decode-level error on one file of a batch reaches the per-file
handler only — every file after the failing one is still parsed (its
results appear in order), the results accumulated before the failure are
retained, and the failure is reported. -/
theorem per_file_errors_do_not_abort_batch :
    ∀ {F R E : Type} (pf : F → Except E R) (xs : List F) (bad : F) (ys : List F) (e : E),
      pf bad = .error e →
      (processFiles pf (xs ++ bad :: ys)).1 =
          (processFiles pf xs).1 ++ (processFiles pf ys).1 ∧
      (processFiles pf (xs ++ bad :: ys)).2 =
          (processFiles pf xs).2 ++ (bad, e) :: (processFiles pf ys).2 := by
  intro F R E pf xs bad ys e h
  induction xs with
  | nil => simp [processFiles, h]
  | cons x xs ih =>
      cases hx : pf x <;> simp [processFiles, hx, ih]

/-- C2 witness: a concrete three-file batch whose middle file fails. -/
theorem per_file_errors_do_not_abort_batch_witness :
    (processFiles demoParse (["a"] ++ "bad" :: ["c"])).1 =
        (processFiles demoParse ["a"]).1 ++ (processFiles demoParse ["c"]).1 ∧
    (processFiles demoParse (["a"] ++ "bad" :: ["c"])).2 =
        (processFiles demoParse ["a"]).2 ++
          ("bad", "boom") :: (processFiles demoParse ["c"]).2 :=
  per_file_errors_do_not_abort_batch demoParse ["a"] "bad" ["c"] "boom"
    (by simp [demoParse])

/-- C10: with zero accumulated results the JSON output step of `parse`
indexes the empty list and fails with `IndexError`; it succeeds exactly on
a non-empty result list, emitting a single object for one result and a
list for more than one. -/
theorem json_output_requires_results :
    ∀ (pf : String → Except String Nat) (files : List String)
      (rs : List (Nat × String)) (r : Nat × String),
      ((∀ f ∈ files, ∃ e, pf f = .error e) →
        jsonEmit (processFiles pf files).1 =
          .error "IndexError: list index out of range") ∧
      jsonEmit [r] = .ok (.single r) ∧
      (1 < rs.length → jsonEmit rs = .ok (.many rs)) ∧
      (exceptIsOk (jsonEmit rs) = true ↔ rs ≠ []) := by
  intro pf files rs r
  refine ⟨?_, rfl, ?_, ?_⟩
  · intro h
    have hempty : (processFiles pf files).1 = [] := by
      induction files with
      | nil => rfl
      | cons f fs ih =>
          obtain ⟨e, he⟩ := h f (List.mem_cons_self f fs)
          simp only [processFiles, he]
          exact ih (fun g hg => h g (List.mem_cons_of_mem f hg))
    rw [hempty]
    rfl
  · intro h
    simp [jsonEmit, h]
  · cases rs with
    | nil => simp [jsonEmit, exceptIsOk]
    | cons a t =>
        cases t with
        | nil => simp [jsonEmit, exceptIsOk]
        | cons b t2 =>
            have h2 : 1 < (a :: b :: t2).length := by
              simp only [List.length_cons]
              omega
            simp [jsonEmit, h2, exceptIsOk]

/-- C10 witness: an all-failing batch hits `IndexError`; two results emit
a list. -/
theorem json_output_requires_results_witness :
    jsonEmit (processFiles demoParse ["bad"]).1 =
        Except.error "IndexError: list index out of range" ∧
    jsonEmit [(1, "a"), (2, "b")] = Except.ok (JsonOut.many [(1, "a"), (2, "b")]) :=
  ⟨(json_output_requires_results demoParse ["bad"] [] (0, "")).1
      (by intro f hf; simp at hf; subst hf; exact ⟨"boom", by simp [demoParse]⟩),
    (json_output_requires_results demoParse [] [(1, "a"), (2, "b")] (0, "")).2.2.1
      (by decide)⟩

/-- C8: in one run of the `parse` command the workspace mapping is loaded
exactly once, before any file is parsed, and every file's parse receives
that same mapping value. -/
theorem workspaces_loaded_once_per_run :
    ∀ (m : WsMap) (files : List String),
      (parseCommandEvents m files).filter isLoadEvent =
          [RunEvent.loadedWorkspaces m] ∧
      (parseCommandEvents m files).head? = some (RunEvent.loadedWorkspaces m) ∧
      (parseCommandEvents m files).all
          (fun e =>
            match e with
            | RunEvent.parsedFile _ m2 => decide (m2 = m)
            | RunEvent.loadedWorkspaces _ => true) = true := by
  intro m files
  refine ⟨?_, rfl, ?_⟩
  · simp only [parseCommandEvents, List.filter_cons]
    have : isLoadEvent (RunEvent.loadedWorkspaces m) = true := rfl
    rw [if_pos this]
    congr 1
    induction files with
    | nil => rfl
    | cons f fs ih =>
        simp only [List.map_cons, List.filter_cons, isLoadEvent]
        exact ih
  · apply List.all_eq_true.mpr
    intro e he
    simp only [parseCommandEvents, List.mem_cons, List.mem_map] at he
    rcases he with rfl | ⟨f, _, rfl⟩ <;> simp

/-- C7: `list_session_files` returns the matching files newest-first — in
its output, every entry's modification time is at least the next one's. -/
theorem session_files_sorted_newest_first :
    ∀ (dir l1 l2 : List DirEntry) (a b : DirEntry),
      listSessionFiles dir = l1 ++ a :: b :: l2 → b.mtime ≤ a.mtime := by
  intro dir l1 l2 a b h
  have hs : List.Sorted mtimeGe (listSessionFiles dir) := by
    unfold listSessionFiles
    exact List.sorted_insertionSort mtimeGe _
  rw [h] at hs
  have hsub : List.Sorted mtimeGe (a :: b :: l2) :=
    List.Pairwise.sublist (List.sublist_append_right l1 (a :: b :: l2)) hs
  exact (List.pairwise_cons.mp hsub).1 b (List.mem_cons_self b l2)

/-- C7 witness: a concrete directory whose two matching session files come
back newest-first. -/
theorem session_files_sorted_newest_first_witness :
    listSessionFiles
        [⟨"Session_1", 5⟩, ⟨"other", 100⟩, ⟨"Tabs_2", 9⟩] =
      [] ++ (⟨"Tabs_2", 9⟩ : DirEntry) :: (⟨"Session_1", 5⟩ : DirEntry) :: [] ∧
    (5 : Nat) ≤ 9 :=
  ⟨by decide,
    session_files_sorted_newest_first
      [⟨"Session_1", 5⟩, ⟨"other", 100⟩, ⟨"Tabs_2", 9⟩] [] []
      ⟨"Tabs_2", 9⟩ ⟨"Session_1", 5⟩ (by decide)⟩

theorem specSelectedProfile_none_iff (b : Browser) (n : Option String) :
    specSelectedProfile b n = none ↔ b.profiles = [] := by
  obtain ⟨profs⟩ := b
  cases profs with
  | nil => simp [specSelectedProfile]
  | cons first rest =>
      simp only [specSelectedProfile]
      constructor
      · intro h
        exfalso
        cases n with
        | none => simp at h
        | some pn =>
            cases hemp : pn.isEmpty with
            | true => simp [hemp] at h
            | false =>
                cases hfe : (first :: rest).find? (fun p => p.name == pn) with
                | some p => simp [hemp, hfe] at h
                | none =>
                    cases hfc :
                        (first :: rest).find? (fun p => lowerContains p.name pn) <;>
                      simp [hemp, hfe, hfc] at h
      · intro h
        cases h

theorem getSelectedProfile_eq_spec (b : Browser) (n : Option String) :
    getSelectedProfile b n = specSelectedProfile b n := by
  obtain ⟨profs⟩ := b
  cases profs with
  | nil => simp [getSelectedProfile, specSelectedProfile]
  | cons first rest =>
      cases n with
      | none =>
          cases hf : (first :: rest).find? (fun p => p.hasSessions) <;>
            simp [getSelectedProfile, specSelectedProfile, hf]
      | some pn =>
          cases hemp : pn.isEmpty with
          | true =>
              cases hf : (first :: rest).find? (fun p => p.hasSessions) <;>
                simp [getSelectedProfile, specSelectedProfile, hemp, hf]
          | false =>
              cases hfe : (first :: rest).find? (fun p => p.name == pn) with
              | some p =>
                  simp [getSelectedProfile, specSelectedProfile, hemp, hfe]
              | none =>
                  cases hfc : (first :: rest).find? (fun p => lowerContains p.name pn) <;>
                    cases hf : (first :: rest).find? (fun p => p.hasSessions) <;>
                      simp [getSelectedProfile, specSelectedProfile, hemp, hfe, hfc, hf]

/-- C9 (amended): `get_selected_profile` returns `None` exactly when the
profile list is empty; a given non-empty name prefers an exact match, then
a case-insensitive containment match; with no name, an empty given name
(Python-falsy), or no match, the first profile with sessions is returned,
else the first profile — i.e. the function agrees with the contract
`specSelectedProfile`. -/
theorem profile_selection_contract :
    ∀ (b : Browser) (n : Option String),
      getSelectedProfile b n = specSelectedProfile b n ∧
      (getSelectedProfile b n = none ↔ b.profiles = []) := by
  intro b n
  refine ⟨getSelectedProfile_eq_spec b n, ?_⟩
  rw [getSelectedProfile_eq_spec b n]
  exact specSelectedProfile_none_iff b n

/-- C9 counterexample to the claim as stated: with profiles `""` (no
sessions) and `"Beta"` (sessions) and the given name `""`, an exact name
match exists (the first profile), yet the function returns `"Beta"` — a
Python-falsy given name skips matching entirely. -/
theorem profile_selection_counterexample :
    getSelectedProfile ⟨[⟨"", false⟩, ⟨"Beta", true⟩]⟩ (some "") =
        some ⟨"Beta", true⟩ ∧
    (Browser.mk [⟨"", false⟩, ⟨"Beta", true⟩]).profiles.find?
        (fun p => p.name == "") = some ⟨"", false⟩ ∧
    (BrowserProfile.mk "Beta" true).name ≠ "" := by
  refine ⟨by decide, by decide, by decide⟩

theorem wsName_ok_of_shaped (w : PyWs) (h : wsStringShaped w = true) :
    ∃ k, wsName w = .ok k := by
  cases w with
  | pnone => exact ⟨"No Workspace", rfl⟩
  | pstr s =>
      by_cases he : s.isEmpty = true
      · exact ⟨"No Workspace", by simp [wsName, pyFalsy, he]⟩
      · exact ⟨s, by simp [wsName, pyFalsy, he]⟩
  | precord nm em => simp [wsStringShaped] at h

theorem countTabs_ok (ts : List PyTab)
    (h : ts.all (fun t => wsStringShaped t.workspace) = true) :
    ∀ acc, ∃ v, countTabs ts acc = .ok v := by
  induction ts with
  | nil => exact fun acc => ⟨acc, rfl⟩
  | cons t ts ih =>
      intro acc
      simp only [List.all_cons, Bool.and_eq_true] at h
      obtain ⟨k, hk⟩ := wsName_ok_of_shaped t.workspace h.1
      obtain ⟨tot, del, wc⟩ := acc
      simp only [countTabs, hk]
      exact ih h.2 _

theorem countWindows_ok (ws : List PyWindow)
    (h : ws.all (fun w => w.tabs.all (fun t => wsStringShaped t.workspace)) = true) :
    ∀ acc, ∃ v, countWindows ws acc = .ok v := by
  induction ws with
  | nil => exact fun acc => ⟨acc, rfl⟩
  | cons w ws ih =>
      intro acc
      simp only [List.all_cons, Bool.and_eq_true] at h
      obtain ⟨a, ha⟩ := countTabs_ok w.tabs h.1 acc
      simp only [countWindows, ha]
      exact ih h.2 a

/-- C1 (amended): the result handed to the presentation layer is keyed by
`windows`, each window exposing `active`, `deleted` and `tabs`, each tab
exposing `title`, `active`, `deleted` and an optional `workspace` that is
a string (the workspace name), not a `{name, emoji}` record — every such
string-shaped result is processed successfully by the `summary`
statistics pass. -/
theorem parsed_result_shape_contract :
    ∀ (r : PyResult), resultStringShaped r = true →
      ∃ v, summaryCounts r = Except.ok v := by
  intro r h
  exact countWindows_ok r.windows h (0, 0, [])

/-- C1 witness: a concrete result with one string workspace and one absent
workspace is accepted. -/
theorem parsed_result_shape_contract_witness :
    resultStringShaped
        ⟨[⟨true, false,
            [⟨"a", true, false, PyWs.pstr "Work"⟩,
              ⟨"b", false, true, PyWs.pnone⟩]⟩]⟩ = true ∧
    ∃ v,
      summaryCounts
          ⟨[⟨true, false,
              [⟨"a", true, false, PyWs.pstr "Work"⟩,
                ⟨"b", false, true, PyWs.pnone⟩]⟩]⟩ = Except.ok v :=
  ⟨by decide,
    parsed_result_shape_contract
      ⟨[⟨true, false,
          [⟨"a", true, false, PyWs.pstr "Work"⟩,
            ⟨"b", false, true, PyWs.pnone⟩]⟩]⟩ (by decide)⟩

/-- C1 counterexample to the claim as stated: a tab whose `workspace`
field holds the claimed `{name, emoji}` record makes the presentation
layer's `summary` pass raise `TypeError` when it uses the value as a
dict key — the shape the CLI consumes has a string there, not a record. -/
theorem record_workspace_rejected :
    summaryCounts
        ⟨[⟨true, false,
            [⟨"t", true, false, PyWs.precord "Work" (some "e")⟩]⟩]⟩ =
      Except.error "TypeError: unhashable type: dict" := rfl

theorem alookup_amapWhere {α : Type} (g : Nat → Bool) (f : Nat → α → α) :
    ∀ (l : List (Nat × α)) (k : Nat),
      alookup (amapWhere g f l) k =
        (alookup l k).map (fun v => if g k then f k v else v) := by
  intro l k
  induction l with
  | nil => rfl
  | cons p rest ih =>
      by_cases hk : p.1 = k
      · subst hk
        by_cases hg : g p.1 <;> simp [amapWhere, alookup, hg]
      · by_cases hg : g p.1 <;> simp [amapWhere, alookup, hg, hk, ih]

theorem alookup_append_left {α : Type} :
    ∀ (l l2 : List (Nat × α)) (k : Nat) (v : α),
      alookup l k = some v → alookup (l ++ l2) k = some v := by
  intro l l2 k v h
  induction l with
  | nil => cases h
  | cons p rest ih =>
      by_cases hk : p.1 = k
      · simp only [alookup, hk, if_pos] at h ⊢
        exact h
      · simp only [alookup, hk, if_neg, List.cons_append, if_false] at h ⊢
        exact ih h

theorem alookup_aensure {α : Type} (l : List (Nat × α)) (k0 : Nat) (d : α)
    (k : Nat) (v : α) (h : alookup l k = some v) :
    alookup (aensure l k0 d) k = some v := by
  unfold aensure
  cases h0 : alookup l k0 with
  | some w => exact h
  | none => exact alookup_append_left l [(k0, d)] k v h

theorem tabDeleted_mapTabs (s : SessionState) (g : Nat → Bool) (f : Nat → Tab → Tab)
    (hf : ∀ k v, v.deleted = true → (f k v).deleted = true) (tid : Nat)
    (h : tabDeleted s tid = true) : tabDeleted (mapTabs s g f) tid = true := by
  unfold tabDeleted at h
  cases hl : alookup s.tabs tid with
  | none => rw [hl] at h; cases h
  | some t =>
      rw [hl] at h
      have hnew : alookup (amapWhere g f s.tabs) tid =
          some (if g tid then f tid t else t) := by
        rw [alookup_amapWhere, hl]
        rfl
      show (match alookup (amapWhere g f s.tabs) tid with
            | some t2 => t2.deleted
            | none => false) = true
      rw [hnew]
      by_cases hg : g tid
      · simp only [hg, if_pos]
        exact hf tid t h
      · simp only [hg, if_neg, if_false]
        exact h

theorem tabDeleted_ensureTab (s : SessionState) (t0 tid : Nat)
    (h : tabDeleted s tid = true) : tabDeleted (ensureTab s t0) tid = true := by
  unfold tabDeleted at h
  cases hl : alookup s.tabs tid with
  | none => rw [hl] at h; cases h
  | some t =>
      rw [hl] at h
      show (match alookup (aensure s.tabs t0 {}) tid with
            | some t2 => t2.deleted
            | none => false) = true
      rw [alookup_aensure s.tabs t0 {} tid t hl]
      exact h

theorem windowDeleted_mapWindows (s : SessionState) (g : Nat → Bool)
    (f : Nat → Window → Window)
    (hf : ∀ k v, v.deleted = true → (f k v).deleted = true) (wid : Nat)
    (h : windowDeleted s wid = true) : windowDeleted (mapWindows s g f) wid = true := by
  unfold windowDeleted at h
  cases hl : alookup s.windows wid with
  | none => rw [hl] at h; cases h
  | some w =>
      rw [hl] at h
      have hnew : alookup (amapWhere g f s.windows) wid =
          some (if g wid then f wid w else w) := by
        rw [alookup_amapWhere, hl]
        rfl
      show (match alookup (amapWhere g f s.windows) wid with
            | some w2 => w2.deleted
            | none => false) = true
      rw [hnew]
      by_cases hg : g wid
      · simp only [hg, if_pos]
        exact hf wid w h
      · simp only [hg, if_neg, if_false]
        exact h

theorem windowDeleted_ensureWindow (s : SessionState) (w0 wid : Nat)
    (h : windowDeleted s wid = true) : windowDeleted (ensureWindow s w0) wid = true := by
  unfold windowDeleted at h
  cases hl : alookup s.windows wid with
  | none => rw [hl] at h; cases h
  | some w =>
      rw [hl] at h
      show (match alookup (aensure s.windows w0 {}) wid with
            | some w2 => w2.deleted
            | none => false) = true
      rw [alookup_aensure s.windows w0 {} wid w hl]
      exact h

theorem tabDeleted_attachTab (s : SessionState) (tid0 wid idx tid : Nat)
    (h : tabDeleted s tid = true) : tabDeleted (attachTab s tid0 wid idx) tid = true := by
  unfold attachTab
  exact tabDeleted_ensureTab s tid0 tid h

theorem windowDeleted_attachTab (s : SessionState) (tid0 wid idx wid2 : Nat)
    (h : windowDeleted s wid2 = true) :
    windowDeleted (attachTab s tid0 wid idx) wid2 = true := by
  unfold attachTab
  refine windowDeleted_mapWindows _ _ _ ?_ wid2 ?_
  · intro k v hv
    exact hv
  refine windowDeleted_mapWindows _ _ _ ?_ wid2 ?_
  · intro k v hv
    exact hv
  exact windowDeleted_ensureWindow _ wid wid2 h

theorem tabDeleted_step (s : SessionState) (c : Command) (tid : Nat)
    (h : tabDeleted s tid = true) : tabDeleted (step s c) tid = true := by
  cases c with
  | createWindow wid => exact h
  | createTab tid0 wid idx => exact tabDeleted_attachTab s tid0 wid idx tid h
  | setTabTitle tid0 t =>
      refine tabDeleted_mapTabs _ _ _ ?_ tid ?_
      · intro k v hv
        exact hv
      exact tabDeleted_ensureTab s tid0 tid h
  | setActiveWindow wid => exact h
  | setSelectedTabInWindow wid tid0 =>
      refine tabDeleted_mapTabs _ _ _ ?_ tid ?_
      · intro k v hv
        exact hv
      refine tabDeleted_mapTabs _ _ _ ?_ tid ?_
      · intro k v hv
        exact hv
      exact tabDeleted_ensureTab (ensureWindow s wid) tid0 tid h
  | tabClosed tid0 =>
      refine tabDeleted_mapTabs _ _ _ ?_ tid ?_
      · intro k v hv
        rfl
      exact tabDeleted_ensureTab s tid0 tid h
  | windowClosed wid =>
      refine tabDeleted_mapTabs _ _ _ ?_ tid ?_
      · intro k v hv
        rfl
      exact h
  | setTabWorkspace tid0 ws =>
      refine tabDeleted_mapTabs _ _ _ ?_ tid ?_
      · intro k v hv
        exact hv
      exact tabDeleted_ensureTab s tid0 tid h
  | moveTabToWindow tid0 wid idx => exact tabDeleted_attachTab s tid0 wid idx tid h
  | pinTab tid0 v =>
      refine tabDeleted_mapTabs _ _ _ ?_ tid ?_
      · intro k v hv
        exact hv
      exact tabDeleted_ensureTab s tid0 tid h
  | setTabIndex tid0 idx =>
      show tabDeleted
          (match (ensureTab s tid0).windows.find? (fun p => p.2.tabIds.contains tid0) with
            | none => ensureTab s tid0
            | some p =>
                mapWindows (ensureTab s tid0) (fun k => k == p.1)
                  (fun _ w =>
                    { w with
                      tabIds :=
                        insertAt (w.tabIds.filter (fun x => x != tid0)) idx tid0 }))
          tid = true
      cases (ensureTab s tid0).windows.find? (fun p => p.2.tabIds.contains tid0) with
      | none => exact tabDeleted_ensureTab s tid0 tid h
      | some p => exact tabDeleted_ensureTab s tid0 tid h
  | unknown id payload => exact h

theorem windowDeleted_step (s : SessionState) (c : Command) (wid2 : Nat)
    (h : windowDeleted s wid2 = true) : windowDeleted (step s c) wid2 = true := by
  cases c with
  | createWindow wid => exact windowDeleted_ensureWindow s wid wid2 h
  | createTab tid0 wid idx => exact windowDeleted_attachTab s tid0 wid idx wid2 h
  | setTabTitle tid0 t => exact h
  | setActiveWindow wid =>
      refine windowDeleted_mapWindows _ _ _ ?_ wid2 ?_
      · intro k v hv
        exact hv
      exact windowDeleted_ensureWindow s wid wid2 h
  | setSelectedTabInWindow wid tid0 =>
      exact windowDeleted_ensureWindow s wid wid2 h
  | tabClosed tid0 => exact h
  | windowClosed wid =>
      refine windowDeleted_mapWindows _ _ _ ?_ wid2 ?_
      · intro k v hv
        rfl
      exact windowDeleted_ensureWindow s wid wid2 h
  | setTabWorkspace tid0 ws => exact h
  | moveTabToWindow tid0 wid idx => exact windowDeleted_attachTab s tid0 wid idx wid2 h
  | pinTab tid0 v => exact h
  | setTabIndex tid0 idx =>
      show windowDeleted
          (match (ensureTab s tid0).windows.find? (fun p => p.2.tabIds.contains tid0) with
            | none => ensureTab s tid0
            | some p =>
                mapWindows (ensureTab s tid0) (fun k => k == p.1)
                  (fun _ w =>
                    { w with
                      tabIds :=
                        insertAt (w.tabIds.filter (fun x => x != tid0)) idx tid0 }))
          wid2 = true
      cases (ensureTab s tid0).windows.find? (fun p => p.2.tabIds.contains tid0) with
      | none => exact h
      | some p =>
          refine windowDeleted_mapWindows _ _ _ ?_ wid2 ?_
          · intro k v hv
            exact hv
          exact h
  | unknown id payload => exact h

theorem tabDeleted_replayFrom (cmds : List Command) :
    ∀ (s : SessionState) (tid : Nat),
      tabDeleted s tid = true → tabDeleted (replayFrom s cmds) tid = true := by
  induction cmds with
  | nil => exact fun s tid h => h
  | cons c cmds ih =>
      exact fun s tid h => ih (step s c) tid (tabDeleted_step s c tid h)

theorem windowDeleted_replayFrom (cmds : List Command) :
    ∀ (s : SessionState) (wid : Nat),
      windowDeleted s wid = true → windowDeleted (replayFrom s cmds) wid = true := by
  induction cmds with
  | nil => exact fun s wid h => h
  | cons c cmds ih =>
      exact fun s wid h => ih (step s c) wid (windowDeleted_step s c wid h)

/-- C3: tombstones are monotonic — a window or tab whose `deleted` flag is
true after replaying a prefix still has it true after any continuation of
the same replay; no command sets the flag back to false. -/
theorem tombstones_monotonic :
    ∀ (c1 c2 : List Command) (tid wid : Nat),
      (tabDeleted (replay c1) tid = true →
        tabDeleted (replay (c1 ++ c2)) tid = true) ∧
      (windowDeleted (replay c1) wid = true →
        windowDeleted (replay (c1 ++ c2)) wid = true) := by
  intro c1 c2 tid wid
  constructor
  · intro h
    rw [replay, replayFrom, List.foldl_append]
    exact tabDeleted_replayFrom c2 _ tid h
  · intro h
    rw [replay, replayFrom, List.foldl_append]
    exact windowDeleted_replayFrom c2 _ wid h

/-- C3 witness: a closed tab and a closed window stay deleted across
further commands that touch them. -/
theorem tombstones_monotonic_witness :
    tabDeleted (replay [Command.tabClosed 3]) 3 = true ∧
    tabDeleted
        (replay ([Command.tabClosed 3] ++
          [Command.setTabTitle 3 "x", Command.createTab 3 1 0])) 3 = true ∧
    windowDeleted
        (replay ([Command.windowClosed 7] ++ [Command.setActiveWindow 7])) 7 = true := by
  refine ⟨by decide, ?_, ?_⟩
  · exact (tombstones_monotonic [Command.tabClosed 3]
      [Command.setTabTitle 3 "x", Command.createTab 3 1 0] 3 0).1 (by decide)
  · exact (tombstones_monotonic [Command.windowClosed 7]
      [Command.setActiveWindow 7] 0 7).2 (by decide)

theorem decodeRecords_encode_cons (r : Nat × List Nat) (rest : List Nat) :
    decodeRecords (encodeRec r ++ rest) =
      (r :: (decodeRecords rest).1, (decodeRecords rest).2) := by
  obtain ⟨cid, payload⟩ := r
  show decodeRecords
      (((payload.length + 1) % 256) :: ((payload.length + 1) / 256) ::
        cid :: (payload ++ rest)) = _
  simp only [decodeRecords]
  rw [Nat.mod_add_div]
  rw [if_neg (by omega)]
  rw [if_neg (by simp only [List.length_append]; omega)]
  rw [Nat.add_sub_cancel, List.take_left, List.drop_left]

theorem decodeRecords_encodeRecords_append (as : List (Nat × List Nat)) (p : List Nat) :
    decodeRecords (encodeRecords as ++ p) =
      (as ++ (decodeRecords p).1, (decodeRecords p).2) := by
  induction as with
  | nil => simp [encodeRecords]
  | cons r as ih =>
      show decodeRecords ((encodeRec r ++ encodeRecords as) ++ p) = _
      rw [List.append_assoc, decodeRecords_encode_cons, ih]
      rfl

theorem decodeRecords_partial (b : Nat × List Nat) (p q : List Nat)
    (happ : p ++ q = encodeRec b) (hp : p ≠ []) (hq : q ≠ []) :
    decodeRecords p = ([], true) := by
  obtain ⟨cid, payload⟩ := b
  rcases p with _ | ⟨x, _ | ⟨y, _ | ⟨z, p3⟩⟩⟩
  · exact absurd rfl hp
  · simp [decodeRecords]
  · simp [decodeRecords]
  · simp only [encodeRec, List.cons_append, List.cons.injEq] at happ
    obtain ⟨hx, hy, hz, hpq⟩ := happ
    subst hx
    subst hy
    have hlenq : (p3 ++ q).length = payload.length := by rw [hpq]
    have hlen : p3.length < payload.length := by
      simp only [List.length_append] at hlenq
      cases q with
      | nil => exact absurd rfl hq
      | cons a t =>
          simp only [List.length_cons] at hlenq
          omega
    simp only [decodeRecords]
    rw [Nat.mod_add_div]
    rw [if_neg (by omega)]
    rw [if_pos (by omega)]

theorem encodeRecords_append (as bs : List (Nat × List Nat)) :
    encodeRecords (as ++ bs) = encodeRecords as ++ encodeRecords bs := by
  induction as with
  | nil => rfl
  | cons r as ih => simp [encodeRecords, ih]

/-- C5 (amended): a command stream of `N` records truncated strictly inside
record `k+1` parses to the `SessionState` of replaying exactly the first
`k` records, with the truncation flag set and no fatal error — a cut
falling exactly on a record boundary also replays the decoded prefix but
is indistinguishable from a complete shorter stream, so it sets no flag. -/
theorem truncated_stream_degrades_gracefully :
    ∀ (as : List (Nat × List Nat)) (b : Nat × List Nat) (bs : List (Nat × List Nat))
      (p q : List Nat),
      p ++ q = encodeRec b → p ≠ [] → q ≠ [] →
      parseBytes (encodeRecords as ++ p) =
          (replay (as.map decodeCommand), true) ∧
      (encodeRecords as ++ p) ++ (q ++ encodeRecords bs) =
          encodeRecords (as ++ b :: bs) := by
  intro as b bs p q happ hp hq
  constructor
  · unfold parseBytes
    rw [decodeRecords_encodeRecords_append, decodeRecords_partial b p q happ hp hq]
    simp
  · rw [encodeRecords_append]
    show _ = encodeRecords as ++ (encodeRec b ++ encodeRecords bs)
    rw [← happ]
    simp [List.append_assoc]

/-- C5 witness: a two-record stream cut one byte into its second record
yields the first record's replay and the truncation flag. -/
theorem truncated_stream_degrades_gracefully_witness :
    parseBytes (encodeRecords [(5, [3, 0, 0, 0])] ++ [2]) =
        (replay ([((5 : Nat), [(3 : Nat), 0, 0, 0])].map decodeCommand), true) ∧
    (encodeRecords [(5, [3, 0, 0, 0])] ++ [2]) ++ ([0, 0, 7] ++ encodeRecords []) =
        encodeRecords ([(5, [3, 0, 0, 0])] ++ (0, [7]) :: []) :=
  truncated_stream_degrades_gracefully [(5, [3, 0, 0, 0])] (0, [7]) [] [2] [0, 0, 7]
    rfl (by decide) (by decide)

/-- C5 counterexample to the claim as stated: the 2-record stream
`[(5,[3,0,0,0]), (6,[3,0,0,0])]` truncated after byte 7 — exactly the
record boundary — decodes only the first of its two records, yet the
truncation marker is `false`: a boundary cut is reported as a complete
stream, so not every truncation to `k < N` records raises the flag. -/
theorem boundary_truncation_unflagged :
    (encodeRecords [(5, [3, 0, 0, 0]), (6, [3, 0, 0, 0])]).take 7 =
        encodeRecords [(5, [3, 0, 0, 0])] ∧
    (decodeRecords (encodeRecords [(5, [3, 0, 0, 0])])).1 = [(5, [3, 0, 0, 0])] ∧
    (parseBytes (encodeRecords [(5, [3, 0, 0, 0])])).2 = false := by
  have h := decodeRecords_encodeRecords_append [(5, [3, 0, 0, 0])] []
  simp only [List.append_nil] at h
  refine ⟨rfl, ?_, ?_⟩
  · rw [h]
    simp [decodeRecords]
  · unfold parseBytes
    rw [h]
    simp [decodeRecords]
